import Mathlib

/-!
Shallow embedding of the echoproxia record/replay proxy core (src/index.js)
together with proofs of its specified properties.

The embedding translates the pure data transformations of the source
(filename sanitisation, header redaction, base64 body encoding, the replay
cursor logic of `handleReplay`, the effective-mode resolution of
`internalSetSequence`, the routing decision of the main middleware, and the
cleanup performed on activation) into executable Lean definitions, and
models the asynchronous write-queue / `stop()` machinery as an explicit
small-step transition system over the queue state.

JavaScript objects used as string-keyed dictionaries are embedded as
association lists; `Buffer` values are embedded as `List Nat` with every
entry below 256; Node's base64 codec (`Buffer.prototype.toString 'base64'`
and `Buffer.from(_, 'base64')`) is embedded as an RFC 4648 base64
encoder/decoder, which is the documented behaviour of those library calls.
-/

/-! ## Association-list helpers (JavaScript object-as-dictionary embedding) -/

/-- Lookup of a key in an association list; embeds `obj[key]`, which is
`undefined` (here `none`) when the key is absent. -/
def alookup (k : String) : List (String × α) → Option α
  | [] => none
  | (k', v) :: rest => if k' = k then some v else alookup k rest

/-- Assignment `obj[key] = v` on an association list: replaces the value at
an existing key, otherwise appends the new binding. -/
def setAssoc (k : String) (v : α) : List (String × α) → List (String × α)
  | [] => [(k, v)]
  | (k', v') :: rest => if k' = k then (k, v) :: rest else (k', v') :: setAssoc k v rest

/-- Removal of a key; embeds deleting a directory entry (`fs.rm` with
`force: true` makes removal of an absent key a no-op). -/
def eraseAssoc (k : String) (l : List (String × α)) : List (String × α) :=
  l.filter (fun e => e.1 ≠ k)

/-! ## Base64 codec (embedding of Node's `Buffer` base64 conversions) -/

def b64e (n : Nat) : Char :=
  match n with
  | 0 => 'A'
  | 1 => 'B'
  | 2 => 'C'
  | 3 => 'D'
  | 4 => 'E'
  | 5 => 'F'
  | 6 => 'G'
  | 7 => 'H'
  | 8 => 'I'
  | 9 => 'J'
  | 10 => 'K'
  | 11 => 'L'
  | 12 => 'M'
  | 13 => 'N'
  | 14 => 'O'
  | 15 => 'P'
  | 16 => 'Q'
  | 17 => 'R'
  | 18 => 'S'
  | 19 => 'T'
  | 20 => 'U'
  | 21 => 'V'
  | 22 => 'W'
  | 23 => 'X'
  | 24 => 'Y'
  | 25 => 'Z'
  | 26 => 'a'
  | 27 => 'b'
  | 28 => 'c'
  | 29 => 'd'
  | 30 => 'e'
  | 31 => 'f'
  | 32 => 'g'
  | 33 => 'h'
  | 34 => 'i'
  | 35 => 'j'
  | 36 => 'k'
  | 37 => 'l'
  | 38 => 'm'
  | 39 => 'n'
  | 40 => 'o'
  | 41 => 'p'
  | 42 => 'q'
  | 43 => 'r'
  | 44 => 's'
  | 45 => 't'
  | 46 => 'u'
  | 47 => 'v'
  | 48 => 'w'
  | 49 => 'x'
  | 50 => 'y'
  | 51 => 'z'
  | 52 => '0'
  | 53 => '1'
  | 54 => '2'
  | 55 => '3'
  | 56 => '4'
  | 57 => '5'
  | 58 => '6'
  | 59 => '7'
  | 60 => '8'
  | 61 => '9'
  | 62 => '+'
  | 63 => '/'
  | _ => 'A'

def b64d (c : Char) : Nat :=
  match c with
  | 'A' => 0
  | 'B' => 1
  | 'C' => 2
  | 'D' => 3
  | 'E' => 4
  | 'F' => 5
  | 'G' => 6
  | 'H' => 7
  | 'I' => 8
  | 'J' => 9
  | 'K' => 10
  | 'L' => 11
  | 'M' => 12
  | 'N' => 13
  | 'O' => 14
  | 'P' => 15
  | 'Q' => 16
  | 'R' => 17
  | 'S' => 18
  | 'T' => 19
  | 'U' => 20
  | 'V' => 21
  | 'W' => 22
  | 'X' => 23
  | 'Y' => 24
  | 'Z' => 25
  | 'a' => 26
  | 'b' => 27
  | 'c' => 28
  | 'd' => 29
  | 'e' => 30
  | 'f' => 31
  | 'g' => 32
  | 'h' => 33
  | 'i' => 34
  | 'j' => 35
  | 'k' => 36
  | 'l' => 37
  | 'm' => 38
  | 'n' => 39
  | 'o' => 40
  | 'p' => 41
  | 'q' => 42
  | 'r' => 43
  | 's' => 44
  | 't' => 45
  | 'u' => 46
  | 'v' => 47
  | 'w' => 48
  | 'x' => 49
  | 'y' => 50
  | 'z' => 51
  | '0' => 52
  | '1' => 53
  | '2' => 54
  | '3' => 55
  | '4' => 56
  | '5' => 57
  | '6' => 58
  | '7' => 59
  | '8' => 60
  | '9' => 61
  | '+' => 62
  | '/' => 63
  | _ => 0

/-- RFC 4648 base64 encoding of a byte list, as performed by
`Buffer.prototype.toString('base64')`. -/
def base64EncodeList : List Nat → List Char
  | [] => []
  | [a] => [b64e (a / 4), b64e (a % 4 * 16), '=', '=']
  | [a, b] => [b64e (a / 4), b64e (a % 4 * 16 + b / 16), b64e (b % 16 * 4), '=']
  | a :: b :: c :: rest =>
    b64e (a / 4) :: b64e (a % 4 * 16 + b / 16) :: b64e (b % 16 * 4 + c / 64) ::
      b64e (c % 64) :: base64EncodeList rest

/-- RFC 4648 base64 decoding, as performed by `Buffer.from(s, 'base64')` on
strings produced by the encoder. -/
def base64DecodeList : List Char → List Nat
  | c1 :: c2 :: c3 :: c4 :: rest =>
    if c3 = '=' then [b64d c1 * 4 + b64d c2 / 16]
    else if c4 = '=' then [b64d c1 * 4 + b64d c2 / 16, b64d c2 % 16 * 16 + b64d c3 / 4]
    else (b64d c1 * 4 + b64d c2 / 16) :: (b64d c2 % 16 * 16 + b64d c3 / 4) ::
      (b64d c3 % 4 * 64 + b64d c4) :: base64DecodeList rest
  | _ => []

def base64Encode (l : List Nat) : String := String.mk (base64EncodeList l)

def base64Decode (s : String) : List Nat := base64DecodeList s.data

/-! ## Filename sanitisation (source `sanitizeFilename`) and path layout -/

/-- Character class `[a-zA-Z0-9_.-]` of the source's sanitisation regex. -/
def charIsSafe (c : Char) : Bool :=
  c.isAlpha || c.isDigit || c = '_' || c = '.' || c = '-'

/-- One string opens the other: `listStarts pre cs` holds when `pre` is an
initial segment of `cs` (structural recursion, so the kernel can evaluate
it; the core `String.startsWith` recurses on byte positions instead). -/
def listStarts : List Char → List Char → Bool
  | [], _ => true
  | _ :: _, [] => false
  | a :: as, b :: bs => a == b && listStarts as bs

/-- Embedding of JavaScript `String.prototype.startsWith`. -/
def strStartsWith (s pre2 : String) : Bool := listStarts pre2.data s.data

/-- Embedding of JavaScript `String.prototype.endsWith` / a `$`-anchored
suffix test. -/
def strEndsWith (s suf : String) : Bool := listStarts suf.data.reverse s.data.reverse

/-- Embedding of `String.prototype.toLowerCase` on the ASCII header names
the source lowercases. -/
def strToLower (s : String) : String := ⟨s.data.map Char.toLower⟩

/-- Embedding of `sanitizeFilename`: strip one leading slash, replace every
character outside `[a-zA-Z0-9_.-]` with an underscore, add a leading
underscore and the current `.echo.json` suffix. -/
def sanitizeFilename (p : String) : String :=
  let stripped : List Char := if strStartsWith p "/" then p.data.drop 1 else p.data
  ⟨'_' :: stripped.map (fun c => if charIsSafe c then c else '_') ++ ".echo.json".data⟩

/-- Embedding of `recordingFilenameNew.replace(/\.echo\.json$/, '.json')`. -/
def replaceSuffix (s suf repl : String) : String :=
  if strEndsWith s suf then ⟨s.data.take (s.data.length - suf.data.length) ++ repl.data⟩
  else s

/-- Node's `path.join` restricted to plain segments, as used by the source. -/
def pathJoin (a b : String) : String := a ++ "/" ++ b

def recordingFilepathNew (dir seq p : String) : String :=
  pathJoin (pathJoin dir seq) (sanitizeFilename p)

def recordingFilenameOld (p : String) : String :=
  replaceSuffix (sanitizeFilename p) ".echo.json" ".json"

def recordingFilepathOld (dir seq p : String) : String :=
  pathJoin (pathJoin dir seq) (recordingFilenameOld p)

/-! ## Header redaction (source `redactHeaders`) -/

/-- Embedding of `redactHeaders`: a header whose lowercased name is in the
redact list keeps its name but has its value replaced by the sentinel. -/
def redactHeaders (headers : List (String × String)) (headersToRedact : List String) :
    List (String × String) :=
  headers.map (fun kv =>
    if headersToRedact.contains (strToLower kv.1) then (kv.1, "[REDACTED]") else kv)

/-- The redact set is lowercased once at construction:
`headersToRedactInput.map(h => h.toLowerCase())`. -/
def mkRedactSet (input : List String) : List String := input.map strToLower

/-! ## Interaction data model -/

structure RecordedRequest where
  method : String
  path : String
  originalUrl : String
  headers : List (String × String)
  body : Option String
  bodyPlainText : Option String
deriving Repr, DecidableEq, Inhabited

structure RecordedResponse where
  status : Nat
  headers : List (String × String)
  bodyPlainText : Option String
  body : Option String
deriving Repr, DecidableEq, Inhabited

structure Interaction where
  request : RecordedRequest
  response : RecordedResponse
deriving Repr, DecidableEq, Inhabited

/-- Outcome of the replay handler for one request: either a 500-class
failure sent with a message, or a replayed response (status, headers,
body bytes written to the client). -/
inductive ReplayOutcome where
  | failure (status : Nat) (message : String)
  | served (status : Nat) (headers : List (String × String)) (body : List Nat)
deriving Repr, DecidableEq

/-- Headers actually set during replay: all stored headers except
`content-length` and `transfer-encoding` (compared on the lowercased name). -/
def replayHeaders (hs : List (String × String)) : List (String × String) :=
  hs.filter (fun kv =>
    !(strToLower kv.1 == "content-length" || strToLower kv.1 == "transfer-encoding"))

/-! ## Replay counters (source `replayCounters` object) -/

abbrev ReplayCounters := List (String × List (String × Nat))

/-- Embedding of `replayCounters[seq][filepath] || 0`. -/
def cursorOfC (rc : ReplayCounters) (seq fp : String) : Nat :=
  ((alookup fp ((alookup seq rc).getD []))).getD 0

/-- Embedding of `if (!replayCounters[seq]) replayCounters[seq] = {}`. -/
def ensureSeq (name : String) (rc : ReplayCounters) : ReplayCounters :=
  if (alookup name rc).isSome then rc else setAssoc name [] rc

/-! ## Replay handler (source `handleReplay`) -/

/-- Failure message of the source's step 5 (`No recording found`). -/
def noRecordingMsg (p seq : String) : String :=
  "Echoproxia Replay Error: No recording found for path " ++ p ++
    " in sequence " ++ seq ++ "."

/-- Failure message of the exhaustion branch. -/
def exhaustedMsg (p seq used : String) : String :=
  "Echoproxia Replay Error: Sequence exhausted for path " ++ p ++
    " in sequence " ++ seq ++ " (file: " ++ used ++ ")."

/-- Failure message of the invalid-body branch. -/
def invalidFormatMsg (p seq : String) : String :=
  "Echoproxia Replay Error: Invalid recording format (missing body) for path " ++
    p ++ " in sequence " ++ seq ++ "."

/-- Steps 1-4 of `handleReplay`: read the current-suffix file; if it yields a
non-empty list use it, otherwise read the legacy-suffix file; track which
file path was actually used (`usedFilepath`, initially the empty string). -/
def resolveRecordings (fsRead : String → List Interaction) (dir seq p : String) :
    List Interaction × String :=
  let rNew := fsRead (recordingFilepathNew dir seq p)
  if rNew.length > 0 then (rNew, recordingFilepathNew dir seq p)
  else
    let rOld := fsRead (recordingFilepathOld dir seq p)
    if rOld.length > 0 then (rOld, recordingFilepathOld dir seq p)
    else ([], "")

/-- Embedding of `handleReplay` (steps 5 onward) over the state it reads and
writes: it consumes the recordings directory, current sequence name and the
`replayCounters` dictionary and returns the outcome together with the updated
counters. `fsRead` stands for `readRecordings` over the file system, which
returns `[]` for a missing, empty, malformed or non-array file. -/
def handleReplayCore (fsRead : String → List Interaction) (dir seq : String)
    (rc : ReplayCounters) (p : String) : ReplayOutcome × ReplayCounters :=
  let res := resolveRecordings fsRead dir seq p
  if res.1.length = 0 then
    (.failure 500 (noRecordingMsg p seq), rc)
  else
    let rc1 := ensureSeq seq rc
    let seqState := (alookup seq rc1).getD []
    let currentIndex := (alookup res.2 seqState).getD 0
    if res.1.length ≤ currentIndex then
      (.failure 500 (exhaustedMsg p seq res.2), rc1)
    else
      let inter := res.1.getD currentIndex default
      let rc2 := setAssoc seq (setAssoc res.2 (currentIndex + 1) seqState) rc1
      let outcome : ReplayOutcome :=
        match inter.response.body with
        | none => .failure 500 (invalidFormatMsg p seq)
        | some b64 =>
          .served inter.response.status (replayHeaders inter.response.headers)
            (base64Decode b64)
      (outcome, rc2)

/-- The response `handleReplay` sends for the stored interaction `i`. -/
def servedOf (i : Interaction) : ReplayOutcome :=
  .served i.response.status (replayHeaders i.response.headers)
    (base64Decode (i.response.body.getD ""))

/-- Counters after a successful replay of `used` at index `k`. -/
def bumpCounters (rc : ReplayCounters) (seq used : String) (k : Nat) : ReplayCounters :=
  setAssoc seq (setAssoc used (k + 1) ((alookup seq (ensureSeq seq rc)).getD []))
    (ensureSeq seq rc)

/-! ## Proxy state, sequence activation and request routing -/

/-- Mutable state established by `createProxy` (the parts the claims concern):
the process-wide default mode, the recordings base directory, the active
sequence name, the effective mode stored by the last activation, the replay
counters and the in-memory recording store. -/
structure FullState where
  currentRecordMode : Bool
  currentRecordingsDir : String
  currentSequenceName : String
  activeSequenceEffectiveMode : Bool
  replayCounters : ReplayCounters
  inMemoryRecordings : List (String × List (String × List Interaction))
deriving Repr, DecidableEq, Inhabited

/-- On-disk layout: sequence directory name mapped to its files
(filename mapped to the interaction list the file holds). -/
abbrev DirMap := List (String × List (String × List Interaction))

/-- Embedding of `internalSetSequence`: resolve the effective mode as the
override when given, else the global mode; when the effective mode is record,
clear the in-memory recordings of the sequence and recursively delete its
directory (an absent directory is tolerated); then store the effective mode,
set the current sequence name and initialise its replay counters only when
the sequence has none yet. -/
def internalSetSequence (st : FullState) (disk : DirMap) (sequenceName : String)
    (overrideMode : Option Bool) : FullState × DirMap :=
  let effectiveMode := overrideMode.getD st.currentRecordMode
  let cleared :=
    if effectiveMode then
      ({ st with inMemoryRecordings := setAssoc sequenceName [] st.inMemoryRecordings },
       eraseAssoc sequenceName disk)
    else (st, disk)
  ({ cleared.1 with
      activeSequenceEffectiveMode := effectiveMode
      currentSequenceName := sequenceName
      replayCounters := ensureSeq sequenceName cleared.1.replayCounters }, cleared.2)

/-- `handleReplay` at the state level: runs the core handler against the
current directory, sequence and counters and writes back the counters. -/
def handleReplay (fsRead : String → List Interaction) (st : FullState) (p : String) :
    ReplayOutcome × FullState :=
  let r := handleReplayCore fsRead st.currentRecordingsDir st.currentSequenceName
    st.replayCounters p
  (r.1, { st with replayCounters := r.2 })

/-- How the main middleware disposes of a request: pass control paths to the
next handler, terminate replay-mode requests in the replay handler (the
explicit `return` after `handleReplay`), or hand record-mode requests to the
forwarding proxy middleware. -/
inductive RouteResult where
  | control
  | replayed (o : ReplayOutcome)
  | forwarded
deriving Repr, DecidableEq

/-- Embedding of the main request middleware. -/
def routeRequest (fsRead : String → List Interaction) (st : FullState) (p : String) :
    RouteResult × FullState :=
  if strStartsWith p "/echoproxia/" then (.control, st)
  else if st.activeSequenceEffectiveMode = false then
    let r := handleReplay fsRead st p
    (.replayed r.1, r.2)
  else (.forwarded, st)

/-- Iterated replay requests against the same path. -/
def replayN (fsRead : String → List Interaction) (p : String) :
    Nat → FullState → List ReplayOutcome × FullState
  | 0, st => ([], st)
  | Nat.succ n, st =>
    let r := handleReplay fsRead st p
    let rest := replayN fsRead p n r.2
    (r.1 :: rest.1, rest.2)

/-! ## Recording an interaction (the `onProxyRes` end handler) -/

/-- Embedding of the interaction built in the `proxyRes.on('end')` handler.
`chunks` are the raw body chunks received from upstream; the stored response
body is the base64 of their concatenation, taken from the bytes exactly as
received (no decompression). The optional plaintext fields are computed by
external library calls (zlib, UTF-8 decoding) that are out of scope, so their
already-computed values are taken as arguments; they do not feed `body`. -/
def recordInteraction (redactLower : List String) (method p originalUrl : String)
    (reqHeaders : List (String × String)) (reqBody : Option (List Nat))
    (reqPlainText : Option String) (status : Nat)
    (respHeaders : List (String × String)) (respPlainText : Option String)
    (chunks : List (List Nat)) : Interaction :=
  { request :=
    { method := method
      path := p
      originalUrl := originalUrl
      headers := redactHeaders reqHeaders redactLower
      body := reqBody.map base64Encode
      bodyPlainText := reqPlainText }
    response :=
    { status := status
      headers := redactHeaders respHeaders redactLower
      bodyPlainText := respPlainText
      body := some (base64Encode chunks.flatten) } }

/-! ## Cleanup operations -/

/-- Embedding of the initial cleanup loop run by `createProxy` in record
mode: it deletes exactly the files of the default sequence directory whose
name ends in `.echo.json`, keeping every other file. -/
def initialCleanupFiles : List (String × β) → List (String × β)
  | [] => []
  | (f, c) :: rest =>
    if strEndsWith f ".echo.json" then initialCleanupFiles rest
    else (f, c) :: initialCleanupFiles rest

/-! ## Write pipeline and shutdown (the write queue, `processWriteQueue`,
`writeRecordingsToFile` and `stop`) as a small-step transition system -/

/-- A queued write job, as pushed by `writeRecordingsToFile`: the target file
path and the full interaction array snapshot taken at enqueue time. -/
structure WriteJob where
  filePath : String
  recordingsArray : List Interaction
deriving Repr, DecidableEq

/-- State of the write pipeline and shutdown machinery. `writeQueue`,
`isStopping` and the implied `isWriting` (here `inflight.isSome`) are the
source's variables; `processorScheduled` models the single pending
`setImmediate(processWriteQueue)` continuation (the chain starts with the
one call made by `createProxy` and each run schedules at most one
successor); `disk` is the file system written by `fs.writeFile`; `written`
and `enqueued` are history variables recording completed writes in
completion order and enqueued jobs in enqueue order. -/
structure QState where
  writeQueue : List WriteJob
  inflight : Option WriteJob
  processorScheduled : Bool
  isStopping : Bool
  stopResolved : Bool
  serverClosed : Bool
  disk : List (String × List Interaction)
  written : List WriteJob
  enqueued : List WriteJob
deriving Repr, DecidableEq

/-- One event-loop step of the pipeline.
`enqueue` is `writeRecordingsToFile` (push only, no kickstart);
`runEmpty` is a `processWriteQueue` run that finds no job and reschedules
itself unless stopping;
`runDequeue` is a run that shifts a job and sets `isWriting`;
`finishWrite` is the completion of the awaited `fs.writeFile`, which
overwrites the target file with the job's full snapshot, clears `isWriting`
and reschedules unless stopping;
`requestStop` is `stop()` setting `isStopping`;
`resolveStop` is `stop()` observing `writeQueue.length == 0 && !isWriting`,
closing the listener and resolving. -/
inductive QStep : QState → QState → Prop
  | enqueue (s : QState) (j : WriteJob) :
      QStep s { s with writeQueue := s.writeQueue ++ [j], enqueued := s.enqueued ++ [j] }
  | runEmpty (s : QState) (hp : s.processorScheduled = true) (hw : s.inflight = none)
      (hq : s.writeQueue = []) :
      QStep s { s with processorScheduled := !s.isStopping }
  | runDequeue (s : QState) (j : WriteJob) (rest : List WriteJob)
      (hp : s.processorScheduled = true) (hw : s.inflight = none)
      (hq : s.writeQueue = j :: rest) :
      QStep s { s with writeQueue := rest, inflight := some j, processorScheduled := false }
  | finishWrite (s : QState) (j : WriteJob) (hw : s.inflight = some j) :
      QStep s { s with inflight := none
                       disk := setAssoc j.filePath j.recordingsArray s.disk
                       written := s.written ++ [j]
                       processorScheduled := !s.isStopping }
  | requestStop (s : QState) :
      QStep s { s with isStopping := true }
  | resolveStop (s : QState) (hs : s.isStopping = true) (hq : s.writeQueue = [])
      (hw : s.inflight = none) :
      QStep s { s with serverClosed := true, stopResolved := true }

/-- The state `createProxy` starts in: empty queue, no write in flight, the
perpetual processor started, not stopping. -/
def initQ : QState :=
  { writeQueue := [], inflight := none, processorScheduled := true,
    isStopping := false, stopResolved := false, serverClosed := false,
    disk := [], written := [], enqueued := [] }

/-- States the pipeline can actually be in. -/
def QReach (s : QState) : Prop := Relation.ReflTransGen QStep initQ s

/-- The file contents produced by replaying the completed writes in order. -/
def diskOfWritten (ws : List WriteJob) : List (String × List Interaction) :=
  ws.foldl (fun d j => setAssoc j.filePath j.recordingsArray d) []

/-- Pipeline invariant: the enqueue history splits exactly into the write
history, the in-flight job and the still-queued jobs, in order; the disk is
the effect of the completed writes; the listener closes exactly when stop
resolves. -/
def stateInv (s : QState) : Prop :=
  s.enqueued = s.written ++ s.inflight.toList ++ s.writeQueue ∧
  s.disk = diskOfWritten s.written ∧
  s.serverClosed = s.stopResolved

/-! ## Sample data for concrete instantiations -/

def sampleInteraction1 : Interaction :=
  ⟨⟨"GET", "/get", "/get", [], none, none⟩,
   ⟨200, [("content-type", "application/json")], none, some ""⟩⟩

def sampleInteraction2 : Interaction :=
  ⟨⟨"GET", "/get", "/get", [], none, none⟩,
   ⟨201, [("content-type", "application/json")], none, some ""⟩⟩

def sampleFs2 : String → List Interaction := fun fp =>
  if fp = recordingFilepathNew "d" "s" "/get" then [sampleInteraction1, sampleInteraction2]
  else []

def wSt : FullState :=
  { currentRecordMode := false, currentRecordingsDir := "d", currentSequenceName := "s",
    activeSequenceEffectiveMode := false, replayCounters := [], inMemoryRecordings := [] }

def wStRec : FullState := { wSt with currentRecordMode := true }

def c1Interaction : Interaction :=
  recordInteraction (mkRedactSet ["authorization"]) "GET" "/get" "/get" [] none none 200
    [("content-type", "application/octet-stream")] none [[0, 255, 254, 128]]

def c1Fs : String → List Interaction := fun fp =>
  if fp = recordingFilepathNew "d" "s" "/get" then [c1Interaction] else []

def c10Rc : ReplayCounters := [("s", [(recordingFilepathOld "d" "s" "/get", 5)])]

def legacyDirFiles : List (String × List Interaction) := [("_get.json", [sampleInteraction1])]

/-- Reading a file of a sequence directory through the on-disk layout:
`<dir>/<seq>/<filename>` resolves against the directory listing. -/
def fsOfSeqDir (dir seq : String) (files : List (String × List Interaction)) :
    String → List Interaction := fun fp =>
  match files.find? (fun e => pathJoin (pathJoin dir seq) e.1 == fp) with
  | some e => e.2
  | none => []

def sampleFiles : List (String × List Interaction) :=
  [("_a.echo.json", []), ("_b.json", [sampleInteraction1])]

def jobA : WriteJob := { filePath := "d/s/_get.echo.json", recordingsArray := [sampleInteraction1] }

def qs1 : QState := { initQ with writeQueue := [jobA], enqueued := [jobA] }

def qs2 : QState := { qs1 with isStopping := true }

def qs3 : QState :=
  { qs2 with writeQueue := [], inflight := some jobA, processorScheduled := false }

def qs4 : QState :=
  { qs3 with
      inflight := none
      disk := setAssoc jobA.filePath jobA.recordingsArray qs3.disk
      written := [jobA]
      processorScheduled := false }

/-! ## Proofs -/

theorem alookup_setAssoc_self (k : String) (v : α) (l : List (String × α)) :
    alookup k (setAssoc k v l) = some v := by
  induction l with
  | nil => simp [alookup, setAssoc]
  | cons hd tl ih =>
    by_cases h : hd.1 = k
    · simp [alookup, setAssoc, h]
    · simpa [alookup, setAssoc, h] using ih

theorem alookup_setAssoc_ne (k k' : String) (v : α) (l : List (String × α))
    (h : k' ≠ k) : alookup k' (setAssoc k v l) = alookup k' l := by
  have h1 : k ≠ k' := fun hh => h hh.symm
  induction l with
  | nil => simp [alookup, setAssoc, h1]
  | cons hd tl ih =>
    by_cases hh : hd.1 = k
    · have h2 : hd.1 ≠ k' := by rw [hh]; exact h1
      simp [alookup, setAssoc, hh, h1, h2]
    · by_cases hk : hd.1 = k'
      · simp [alookup, setAssoc, hh, hk, h, h1]
      · simp [alookup, setAssoc, hh, hk, ih]

theorem alookup_eraseAssoc_self (k : String) (l : List (String × α)) :
    alookup k (eraseAssoc k l) = none := by
  induction l with
  | nil => simp [alookup, eraseAssoc]
  | cons hd tl ih =>
    by_cases h : hd.1 = k
    · simpa [eraseAssoc, List.filter_cons, h] using ih
    · simpa [eraseAssoc, List.filter_cons, alookup, h] using ih

theorem alookup_eraseAssoc_ne (k k' : String) (l : List (String × α))
    (h : k' ≠ k) : alookup k' (eraseAssoc k l) = alookup k' l := by
  have h1 : k ≠ k' := fun hh => h hh.symm
  induction l with
  | nil => simp [alookup, eraseAssoc]
  | cons hd tl ih =>
    by_cases hh : hd.1 = k
    · have h2 : hd.1 ≠ k' := by rw [hh]; exact h1
      simpa [eraseAssoc, List.filter_cons, alookup, hh, h2, h1] using ih
    · by_cases hk : hd.1 = k'
      · simp [eraseAssoc, List.filter_cons, alookup, hh, hk, h, h1]
      · simpa [eraseAssoc, List.filter_cons, alookup, hh, hk] using ih

theorem b64d_b64e_fin : ∀ n : Fin 64, b64d (b64e n.val) = n.val := by decide

theorem b64e_ne_pad_fin : ∀ n : Fin 64, b64e n.val ≠ '=' := by decide

theorem b64d_b64e (n : Nat) (h : n < 64) : b64d (b64e n) = n :=
  b64d_b64e_fin ⟨n, h⟩

theorem b64e_ne_pad (n : Nat) (h : n < 64) : b64e n ≠ '=' :=
  b64e_ne_pad_fin ⟨n, h⟩

theorem base64_roundtrip_list (l : List Nat) (h : ∀ x ∈ l, x < 256) :
    base64DecodeList (base64EncodeList l) = l := by
  induction l using base64EncodeList.induct with
  | case1 => rfl
  | case2 a =>
    have ha : a < 256 := h a (by simp)
    have e1 : b64d (b64e (a / 4)) = a / 4 := b64d_b64e _ (by omega)
    have e2 : b64d (b64e (a % 4 * 16)) = a % 4 * 16 := b64d_b64e _ (by omega)
    simp [base64EncodeList, base64DecodeList, e1, e2]
    omega
  | case3 a b =>
    have ha : a < 256 := h a (by simp)
    have hb : b < 256 := h b (by simp)
    have hne : b64e (b % 16 * 4) ≠ '=' := b64e_ne_pad _ (by omega)
    have e1 : b64d (b64e (a / 4)) = a / 4 := b64d_b64e _ (by omega)
    have e2 : b64d (b64e (a % 4 * 16 + b / 16)) = a % 4 * 16 + b / 16 :=
      b64d_b64e _ (by omega)
    have e3 : b64d (b64e (b % 16 * 4)) = b % 16 * 4 := b64d_b64e _ (by omega)
    simp [base64EncodeList, base64DecodeList, hne, e1, e2, e3]
    omega
  | case4 a b c rest ih =>
    have ha : a < 256 := h a (by simp)
    have hb : b < 256 := h b (by simp)
    have hc : c < 256 := h c (by simp)
    have hrest : ∀ x ∈ rest, x < 256 := fun x hx => h x (by simp [hx])
    have hne3 : b64e (b % 16 * 4 + c / 64) ≠ '=' := b64e_ne_pad _ (by omega)
    have hne4 : b64e (c % 64) ≠ '=' := b64e_ne_pad _ (by omega)
    have e1 : b64d (b64e (a / 4)) = a / 4 := b64d_b64e _ (by omega)
    have e2 : b64d (b64e (a % 4 * 16 + b / 16)) = a % 4 * 16 + b / 16 :=
      b64d_b64e _ (by omega)
    have e3 : b64d (b64e (b % 16 * 4 + c / 64)) = b % 16 * 4 + c / 64 :=
      b64d_b64e _ (by omega)
    have e4 : b64d (b64e (c % 64)) = c % 64 := b64d_b64e _ (by omega)
    simp [base64EncodeList, base64DecodeList, hne3, hne4, e1, e2, e3, e4, ih hrest]
    omega

theorem base64_roundtrip (l : List Nat) (h : ∀ x ∈ l, x < 256) :
    base64Decode (base64Encode l) = l := by
  simpa [base64Encode, base64Decode] using base64_roundtrip_list l h

theorem ensureSeq_alookup_self (name : String) (rc : ReplayCounters) :
    alookup name (ensureSeq name rc) = some ((alookup name rc).getD []) := by
  unfold ensureSeq
  cases h : alookup name rc with
  | none => simp [h, alookup_setAssoc_self]
  | some v => simp [h]

theorem ensureSeq_alookup_ne (name seq : String) (rc : ReplayCounters)
    (h : seq ≠ name) : alookup seq (ensureSeq name rc) = alookup seq rc := by
  unfold ensureSeq
  cases hh : alookup name rc with
  | none => simp [hh, alookup_setAssoc_ne _ _ _ _ h]
  | some v => simp [hh]

theorem ensureSeq_cursor (name seq fp : String) (rc : ReplayCounters) :
    cursorOfC (ensureSeq name rc) seq fp = cursorOfC rc seq fp := by
  by_cases h : seq = name
  · subst h
    simp [cursorOfC, ensureSeq_alookup_self]
  · simp [cursorOfC, ensureSeq_alookup_ne _ _ _ h]

theorem cursor_ensure_eq (seq used : String) (rc : ReplayCounters) :
    (alookup used ((alookup seq (ensureSeq seq rc)).getD [])).getD 0 =
      cursorOfC rc seq used := by
  rw [ensureSeq_alookup_self]
  rfl

theorem resolveRecordings_new (fsRead : String → List Interaction) (dir seq p : String)
    (h : fsRead (recordingFilepathNew dir seq p) ≠ []) :
    resolveRecordings fsRead dir seq p =
      (fsRead (recordingFilepathNew dir seq p), recordingFilepathNew dir seq p) := by
  have hl : (fsRead (recordingFilepathNew dir seq p)).length > 0 := List.length_pos.mpr h
  simp [resolveRecordings, hl]

theorem resolveRecordings_old (fsRead : String → List Interaction) (dir seq p : String)
    (h1 : fsRead (recordingFilepathNew dir seq p) = [])
    (h2 : fsRead (recordingFilepathOld dir seq p) ≠ []) :
    resolveRecordings fsRead dir seq p =
      (fsRead (recordingFilepathOld dir seq p), recordingFilepathOld dir seq p) := by
  have hl : (fsRead (recordingFilepathOld dir seq p)).length > 0 := List.length_pos.mpr h2
  simp [resolveRecordings, h1, hl]

theorem resolveRecordings_none (fsRead : String → List Interaction) (dir seq p : String)
    (h1 : fsRead (recordingFilepathNew dir seq p) = [])
    (h2 : fsRead (recordingFilepathOld dir seq p) = []) :
    resolveRecordings fsRead dir seq p = ([], "") := by
  simp [resolveRecordings, h1, h2]

theorem handleReplayCore_notFound (fsRead : String → List Interaction)
    (dir seq : String) (rc : ReplayCounters) (p : String)
    (hres : (resolveRecordings fsRead dir seq p).1 = []) :
    handleReplayCore fsRead dir seq rc p = (.failure 500 (noRecordingMsg p seq), rc) := by
  unfold handleReplayCore
  simp [hres]

theorem handleReplayCore_exhausted (fsRead : String → List Interaction)
    (dir seq : String) (rc : ReplayCounters) (p : String)
    (L : List Interaction) (used : String)
    (hres : resolveRecordings fsRead dir seq p = (L, used))
    (hne : L ≠ [])
    (hk : L.length ≤ cursorOfC rc seq used) :
    handleReplayCore fsRead dir seq rc p =
      (.failure 500 (exhaustedMsg p seq used), ensureSeq seq rc) := by
  unfold handleReplayCore
  rw [hres]
  simp [List.length_eq_zero, hne, cursor_ensure_eq, hk]

theorem handleReplayCore_served (fsRead : String → List Interaction)
    (dir seq : String) (rc : ReplayCounters) (p : String)
    (L : List Interaction) (used b64 : String) (k : Nat)
    (hres : resolveRecordings fsRead dir seq p = (L, used))
    (hk : cursorOfC rc seq used = k)
    (hklen : k < L.length)
    (hbody : (L.getD k default).response.body = some b64) :
    handleReplayCore fsRead dir seq rc p =
      (.served (L.getD k default).response.status
        (replayHeaders (L.getD k default).response.headers) (base64Decode b64),
       bumpCounters rc seq used k) := by
  have hne : L ≠ [] := by
    intro hL
    rw [hL] at hklen
    simp at hklen
  have hgd : L.getD k default = L[k]?.getD default := List.getD_eq_getElem?_getD L k default
  have hbody' : (L[k]?.getD default).response.body = some b64 := hgd ▸ hbody
  unfold handleReplayCore bumpCounters
  rw [hres]
  simp [List.length_eq_zero, hne, cursor_ensure_eq, hk, Nat.not_le.mpr hklen,
    hbody', hgd]

theorem handleReplayCore_counters_cases (fsRead : String → List Interaction)
    (dir seq : String) (rc : ReplayCounters) (p : String) :
    (handleReplayCore fsRead dir seq rc p).2 = rc ∨
    (handleReplayCore fsRead dir seq rc p).2 = ensureSeq seq rc ∨
    ∃ used, (handleReplayCore fsRead dir seq rc p).2 =
      bumpCounters rc seq used (cursorOfC rc seq used) := by
  unfold handleReplayCore
  dsimp only
  split_ifs with h1 h2
  · exact Or.inl rfl
  · exact Or.inr (Or.inl rfl)
  · right; right
    refine ⟨(resolveRecordings fsRead dir seq p).2, ?_⟩
    unfold bumpCounters
    rw [cursor_ensure_eq]

theorem cursor_bump_self (rc : ReplayCounters) (seq used : String) (k : Nat) :
    cursorOfC (bumpCounters rc seq used k) seq used = k + 1 := by
  unfold bumpCounters cursorOfC
  rw [alookup_setAssoc_self]
  simp [alookup_setAssoc_self]

theorem cursor_bump_ne_fp (rc : ReplayCounters) (seq used fp : String) (k : Nat)
    (h : fp ≠ used) : cursorOfC (bumpCounters rc seq used k) seq fp = cursorOfC rc seq fp := by
  unfold bumpCounters cursorOfC
  rw [alookup_setAssoc_self]
  simp only [Option.getD_some]
  rw [alookup_setAssoc_ne _ _ _ _ h, ensureSeq_alookup_self]
  rfl

theorem cursor_bump_ne_seq (rc : ReplayCounters) (seq used seq' fp : String) (k : Nat)
    (h : seq' ≠ seq) :
    cursorOfC (bumpCounters rc seq used k) seq' fp = cursorOfC rc seq' fp := by
  unfold bumpCounters cursorOfC
  rw [alookup_setAssoc_ne _ _ _ _ h, ensureSeq_alookup_ne _ _ _ h]

theorem handleReplayCore_cursor_mono (fsRead : String → List Interaction)
    (dir seq : String) (rc : ReplayCounters) (p seq2 fp2 : String) :
    cursorOfC rc seq2 fp2 ≤ cursorOfC (handleReplayCore fsRead dir seq rc p).2 seq2 fp2 := by
  rcases handleReplayCore_counters_cases fsRead dir seq rc p with h | h | ⟨used, h⟩
  · rw [h]
  · rw [h, ensureSeq_cursor]
  · rw [h]
    by_cases hs : seq2 = seq
    · subst hs
      by_cases hf : fp2 = used
      · subst hf
        rw [cursor_bump_self]
        omega
      · rw [cursor_bump_ne_fp _ _ _ _ _ hf]
    · rw [cursor_bump_ne_seq _ _ _ _ _ _ hs]

theorem stateInv_init : stateInv initQ := by
  refine ⟨rfl, rfl, rfl⟩

theorem stateInv_step (s s' : QState) (h : QStep s s') (hi : stateInv s) : stateInv s' := by
  obtain ⟨h1, h2, h3⟩ := hi
  cases h with
  | enqueue j =>
    refine ⟨?_, h2, h3⟩
    rw [h1]
    simp
  | runEmpty hp hw hq => exact ⟨h1, h2, h3⟩
  | runDequeue j rest hp hw hq =>
    refine ⟨?_, h2, h3⟩
    rw [h1, hq, hw]
    simp
  | finishWrite j hw =>
    refine ⟨?_, ?_, h3⟩
    · rw [h1, hw]
      simp
    · rw [h2]
      simp [diskOfWritten, List.foldl_append]
  | requestStop => exact ⟨h1, h2, h3⟩
  | resolveStop hs hq hw => exact ⟨h1, h2, rfl⟩

theorem QReach_stateInv (s : QState) (h : QReach s) : stateInv s := by
  induction h with
  | refl => exact stateInv_init
  | tail _ hstep ih => exact stateInv_step _ _ hstep ih

theorem lookup_diskOfWritten (ws : List WriteJob) (p : String) :
    alookup p (diskOfWritten ws) =
      (ws.reverse.find? (fun j => j.filePath == p)).map (fun j => j.recordingsArray) := by
  induction ws using List.reverseRecOn with
  | nil => simp [diskOfWritten, alookup]
  | append_singleton ws j ih =>
    have hfold : diskOfWritten (ws ++ [j]) =
        setAssoc j.filePath j.recordingsArray (diskOfWritten ws) := by
      simp [diskOfWritten, List.foldl_append]
    rw [hfold, List.reverse_append]
    by_cases hp : j.filePath = p
    · rw [hp, alookup_setAssoc_self]
      simp [List.find?_cons_of_pos, hp]
    · rw [alookup_setAssoc_ne _ _ _ _ (fun hh => hp hh.symm)]
      have : (j.filePath == p) = false := by simp [hp]
      simp [List.find?_cons_of_neg, this, ih]

theorem contains_mkRedactSet (input : List String) (s : String) :
    (mkRedactSet input).contains s = true ↔ ∃ n ∈ input, strToLower n = s := by
  induction input with
  | nil => simp [mkRedactSet]
  | cons hd tl ih =>
    simp only [mkRedactSet, List.map_cons, List.contains_cons, Bool.or_eq_true, beq_iff_eq]
    constructor
    · rintro (h | h)
      · exact ⟨hd, List.mem_cons_self _ _, h.symm⟩
      · obtain ⟨n, hn, he⟩ := ih.mp h
        exact ⟨n, List.mem_cons_of_mem _ hn, he⟩
    · rintro ⟨n, hn, he⟩
      rcases List.mem_cons.mp hn with rfl | hn2
      · exact Or.inl he.symm
      · exact Or.inr (ih.mpr ⟨n, hn2, he⟩)

theorem mem_initialCleanupFiles (files : List (String × β)) (e : String × β) :
    e ∈ initialCleanupFiles files ↔ e ∈ files ∧ strEndsWith e.1 ".echo.json" = false := by
  induction files with
  | nil => simp [initialCleanupFiles]
  | cons hd rest ih =>
    obtain ⟨f, c⟩ := hd
    by_cases h : strEndsWith f ".echo.json"
    · rw [show initialCleanupFiles ((f, c) :: rest) = initialCleanupFiles rest by
        simp [initialCleanupFiles, h]]
      rw [ih]
      constructor
      · rintro ⟨he, hend⟩
        exact ⟨List.mem_cons_of_mem _ he, hend⟩
      · rintro ⟨hor, hend⟩
        rcases List.mem_cons.mp hor with he | he
        · exfalso
          rw [he] at hend
          simp [h] at hend
        · exact ⟨he, hend⟩
    · rw [show initialCleanupFiles ((f, c) :: rest) = (f, c) :: initialCleanupFiles rest by
        simp [initialCleanupFiles, h]]
      constructor
      · intro hmem
        rcases List.mem_cons.mp hmem with he | he
        · refine ⟨by rw [he]; exact List.mem_cons_self _ _, ?_⟩
          rw [he]
          simpa using h
        · obtain ⟨h1, h2⟩ := ih.mp he
          exact ⟨List.mem_cons_of_mem _ h1, h2⟩
      · rintro ⟨hor, hend⟩
        rcases List.mem_cons.mp hor with he | he
        · rw [he]
          exact List.mem_cons_self _ _
        · exact List.mem_cons_of_mem _ (ih.mpr ⟨he, hend⟩)

/-- C9: every header whose lowercase name is in the configured redact set
(lowercased at construction) is stored with its value replaced by the fixed
sentinel `[REDACTED]` and its name kept; every other header is stored
unchanged at its position; the same redaction is applied to the request and
the response headers of the interaction built for persistence. -/
theorem claim9_redaction (input : List String) (method p originalUrl : String)
    (reqHeaders : List (String × String)) (reqBody : Option (List Nat))
    (reqPT : Option String) (status : Nat) (respHeaders : List (String × String))
    (respPT : Option String) (chunks : List (List Nat)) :
    (recordInteraction (mkRedactSet input) method p originalUrl reqHeaders reqBody reqPT
        status respHeaders respPT chunks).request.headers =
      redactHeaders reqHeaders (mkRedactSet input) ∧
    (recordInteraction (mkRedactSet input) method p originalUrl reqHeaders reqBody reqPT
        status respHeaders respPT chunks).response.headers =
      redactHeaders respHeaders (mkRedactSet input) ∧
    (∀ hs : List (String × String),
      (redactHeaders hs (mkRedactSet input)).length = hs.length ∧
      ∀ j k v, j < hs.length → hs.getD j ("", "") = (k, v) →
        (redactHeaders hs (mkRedactSet input)).getD j ("", "") =
          (k, if ∃ n ∈ input, strToLower n = strToLower k then "[REDACTED]" else v)) := by
  refine ⟨rfl, rfl, ?_⟩
  intro hs
  have hlen : (redactHeaders hs (mkRedactSet input)).length = hs.length := by
    simp [redactHeaders]
  refine ⟨hlen, ?_⟩
  intro j k v hj hget
  have hj2 : j < (redactHeaders hs (mkRedactSet input)).length := by rw [hlen]; exact hj
  rw [List.getD_eq_getElem _ _ hj] at hget
  rw [List.getD_eq_getElem _ _ hj2]
  have hmap : (redactHeaders hs (mkRedactSet input))[j] =
      (if (mkRedactSet input).contains (strToLower hs[j].1)
        then (hs[j].1, "[REDACTED]") else hs[j]) := by
    simp [redactHeaders]
  rw [hmap, hget]
  by_cases hc : ∃ n ∈ input, strToLower n = strToLower k
  · have hb : (mkRedactSet input).contains (strToLower k) = true :=
      (contains_mkRedactSet input (strToLower k)).mpr hc
    rw [if_pos hb, if_pos hc]
  · have hb : ¬((mkRedactSet input).contains (strToLower k) = true) := fun hcontains =>
      hc ((contains_mkRedactSet input (strToLower k)).mp hcontains)
    rw [if_neg hb, if_neg hc]

/-- C7: replay lookup tries the current-suffix file first and uses its
contents exclusively whenever it is non-empty; only when it is absent or
empty is the legacy-suffix file tried; when neither yields a non-empty list
the handler fails with the "no recording" response naming path and
sequence, leaving the counters untouched. -/
theorem claim7_legacy_fallback (fs : String → List Interaction) (dir seq p : String)
    (rc : ReplayCounters) :
    (fs (recordingFilepathNew dir seq p) ≠ [] →
      resolveRecordings fs dir seq p =
        (fs (recordingFilepathNew dir seq p), recordingFilepathNew dir seq p)) ∧
    (fs (recordingFilepathNew dir seq p) = [] →
      fs (recordingFilepathOld dir seq p) ≠ [] →
      resolveRecordings fs dir seq p =
        (fs (recordingFilepathOld dir seq p), recordingFilepathOld dir seq p)) ∧
    (fs (recordingFilepathNew dir seq p) = [] →
      fs (recordingFilepathOld dir seq p) = [] →
      handleReplayCore fs dir seq rc p = (.failure 500 (noRecordingMsg p seq), rc) ∧
      noRecordingMsg p seq =
        "Echoproxia Replay Error: No recording found for path " ++ p ++
          " in sequence " ++ seq ++ ".") := by
  refine ⟨resolveRecordings_new fs dir seq p, resolveRecordings_old fs dir seq p, ?_⟩
  intro h1 h2
  refine ⟨?_, rfl⟩
  apply handleReplayCore_notFound
  rw [resolveRecordings_none fs dir seq p h1 h2]

/-- C10: the replay cursor is keyed by the file path actually used for
resolution, not by the abstract location: when the current-suffix file
resolves, its own cursor (starting at 0 on first use) governs and is the one
incremented, while the legacy-suffix file path retains its independent
cursor value unchanged. -/
theorem claim10_cursor_keyed_by_used_filepath (fs : String → List Interaction)
    (dir seq p b : String) (rc : ReplayCounters) (L : List Interaction) (n : Nat)
    (hnew : fs (recordingFilepathNew dir seq p) = L)
    (hne : 0 < L.length)
    (hbody : (L.getD 0 default).response.body = some b)
    (hfresh : cursorOfC rc seq (recordingFilepathNew dir seq p) = 0)
    (hold : cursorOfC rc seq (recordingFilepathOld dir seq p) = n)
    (hpaths : recordingFilepathOld dir seq p ≠ recordingFilepathNew dir seq p) :
    (handleReplayCore fs dir seq rc p).1 =
      .served (L.getD 0 default).response.status
        (replayHeaders (L.getD 0 default).response.headers) (base64Decode b) ∧
    cursorOfC (handleReplayCore fs dir seq rc p).2 seq (recordingFilepathNew dir seq p) = 1 ∧
    cursorOfC (handleReplayCore fs dir seq rc p).2 seq (recordingFilepathOld dir seq p) = n := by
  have hres : resolveRecordings fs dir seq p = (L, recordingFilepathNew dir seq p) := by
    have := resolveRecordings_new fs dir seq p (by rw [hnew]; exact List.ne_nil_of_length_pos hne)
    rw [hnew] at this
    exact this
  have hmain := handleReplayCore_served fs dir seq rc p L (recordingFilepathNew dir seq p)
    b 0 hres hfresh hne hbody
  rw [hmain]
  refine ⟨rfl, ?_, ?_⟩
  · exact cursor_bump_self rc seq (recordingFilepathNew dir seq p) 0
  · rw [cursor_bump_ne_fp rc seq (recordingFilepathNew dir seq p)
      (recordingFilepathOld dir seq p) 0 hpaths]
    exact hold

/-- C6: the effective mode stored by an activation is the override when one
is supplied, else the process-wide default; while it is replay, no request
is ever handed to the forwarding proxy middleware, and every non-control
request terminates in the replay handler. -/
theorem claim6_replay_mode_never_forwards (st : FullState) (disk : DirMap) (name : String)
    (overrideMode : Option Bool) (fs : String → List Interaction) (p : String)
    (hmode : overrideMode.getD st.currentRecordMode = false) :
    (internalSetSequence st disk name overrideMode).1.activeSequenceEffectiveMode =
      overrideMode.getD st.currentRecordMode ∧
    (routeRequest fs (internalSetSequence st disk name overrideMode).1 p).1 ≠ .forwarded ∧
    (¬ strStartsWith p "/echoproxia/" →
      ∃ o, (routeRequest fs (internalSetSequence st disk name overrideMode).1 p).1 =
        .replayed o) := by
  have hm : (internalSetSequence st disk name overrideMode).1.activeSequenceEffectiveMode
      = false := hmode
  refine ⟨rfl, ?_, ?_⟩
  · unfold routeRequest
    by_cases hp : strStartsWith p "/echoproxia/"
    · simp [hp]
    · simp [hp, hm]
  · intro hp
    refine ⟨(handleReplay fs (internalSetSequence st disk name overrideMode).1 p).1, ?_⟩
    unfold routeRequest
    simp [hp, hm]

/-- C1: the interaction stored for an upstream response whose body arrived
as the given raw chunks holds exactly the base64 of those bytes (never
decompressed), and replaying that stored interaction writes a response body
byte-identical to the original bytes. -/
theorem claim1_byte_exact_roundtrip (redactInput : List String)
    (method p originalUrl : String) (reqHeaders : List (String × String))
    (reqBody : Option (List Nat)) (reqPT : Option String) (status : Nat)
    (respHeaders : List (String × String)) (respPT : Option String)
    (chunks : List (List Nat)) (fs : String → List Interaction) (dir seq : String)
    (rc : ReplayCounters)
    (hbytes : ∀ x ∈ chunks.flatten, x < 256)
    (hfs : fs (recordingFilepathNew dir seq p) =
      [recordInteraction (mkRedactSet redactInput) method p originalUrl reqHeaders reqBody
        reqPT status respHeaders respPT chunks])
    (hfresh : cursorOfC rc seq (recordingFilepathNew dir seq p) = 0) :
    (recordInteraction (mkRedactSet redactInput) method p originalUrl reqHeaders reqBody
        reqPT status respHeaders respPT chunks).response.body =
      some (base64Encode chunks.flatten) ∧
    (handleReplayCore fs dir seq rc p).1 =
      .served status (replayHeaders (redactHeaders respHeaders (mkRedactSet redactInput)))
        chunks.flatten := by
  refine ⟨rfl, ?_⟩
  have hres : resolveRecordings fs dir seq p =
      ([recordInteraction (mkRedactSet redactInput) method p originalUrl reqHeaders reqBody
        reqPT status respHeaders respPT chunks], recordingFilepathNew dir seq p) := by
    have := resolveRecordings_new fs dir seq p (by rw [hfs]; simp)
    rw [hfs] at this
    exact this
  have hmain := handleReplayCore_served fs dir seq rc p
    [recordInteraction (mkRedactSet redactInput) method p originalUrl reqHeaders reqBody
      reqPT status respHeaders respPT chunks]
    (recordingFilepathNew dir seq p) (base64Encode chunks.flatten) 0 hres hfresh
    (by simp) rfl
  rw [hmain]
  show ReplayOutcome.served _ _ (base64Decode (base64Encode chunks.flatten)) = _
  rw [base64_roundtrip _ hbytes]
  rfl

theorem handleReplay_outcome (fs : String → List Interaction) (st : FullState) (p : String) :
    (handleReplay fs st p).1 =
      (handleReplayCore fs st.currentRecordingsDir st.currentSequenceName
        st.replayCounters p).1 := rfl

theorem handleReplay_counters (fs : String → List Interaction) (st : FullState) (p : String) :
    (handleReplay fs st p).2.replayCounters =
      (handleReplayCore fs st.currentRecordingsDir st.currentSequenceName
        st.replayCounters p).2 := rfl

theorem replayN_add (fs : String → List Interaction) (p : String) (m n : Nat) :
    ∀ st : FullState,
    (replayN fs p (m + n) st).1 =
      (replayN fs p m st).1 ++ (replayN fs p n (replayN fs p m st).2).1 ∧
    (replayN fs p (m + n) st).2 = (replayN fs p n (replayN fs p m st).2).2 := by
  induction m with
  | zero =>
    intro st
    simp [replayN]
  | succ m ih =>
    intro st
    have hsum : m + 1 + n = (m + n) + 1 := by omega
    rw [hsum]
    simp only [replayN]
    obtain ⟨ih1, ih2⟩ := ih (handleReplay fs st p).2
    constructor
    · rw [ih1]
      simp
    · rw [ih2]

theorem replayN_served_run (fs : String → List Interaction) (p : String)
    (L : List Interaction) (hbodies : ∀ i ∈ L, i.response.body.isSome) (m : Nat) :
    ∀ (k : Nat) (st : FullState),
    fs (recordingFilepathNew st.currentRecordingsDir st.currentSequenceName p) = L →
    cursorOfC st.replayCounters st.currentSequenceName
      (recordingFilepathNew st.currentRecordingsDir st.currentSequenceName p) = k →
    k + m ≤ L.length →
    (replayN fs p m st).1 =
      (List.range m).map (fun i => servedOf (L.getD (k + i) default)) ∧
    (replayN fs p m st).2.currentRecordingsDir = st.currentRecordingsDir ∧
    (replayN fs p m st).2.currentSequenceName = st.currentSequenceName ∧
    cursorOfC (replayN fs p m st).2.replayCounters st.currentSequenceName
      (recordingFilepathNew st.currentRecordingsDir st.currentSequenceName p) = k + m := by
  induction m with
  | zero =>
    intro k st hfs hk hlen
    exact ⟨by simp [replayN], rfl, rfl, hk⟩
  | succ m ih =>
    intro k st hfs hk hlen
    have hklen : k < L.length := by omega
    have hmem : L.getD k default ∈ L := by
      rw [List.getD_eq_getElem _ _ hklen]
      exact List.getElem_mem _
    obtain ⟨b, hb⟩ := Option.isSome_iff_exists.mp (hbodies _ hmem)
    have hres : resolveRecordings fs st.currentRecordingsDir st.currentSequenceName p =
        (L, recordingFilepathNew st.currentRecordingsDir st.currentSequenceName p) := by
      have := resolveRecordings_new fs st.currentRecordingsDir st.currentSequenceName p
        (by rw [hfs]; exact List.ne_nil_of_length_pos (by omega))
      rw [hfs] at this
      exact this
    have hcore := handleReplayCore_served fs st.currentRecordingsDir st.currentSequenceName
      st.replayCounters p L
      (recordingFilepathNew st.currentRecordingsDir st.currentSequenceName p) b k
      hres hk hklen hb
    have hout : (handleReplay fs st p).1 = servedOf (L.getD k default) := by
      rw [handleReplay_outcome, hcore]
      simp only [servedOf]
      rw [hb]
      rfl
    have hst1 : (handleReplay fs st p).2.replayCounters =
        bumpCounters st.replayCounters st.currentSequenceName
          (recordingFilepathNew st.currentRecordingsDir st.currentSequenceName p) k := by
      rw [handleReplay_counters, hcore]
    have hk1 : cursorOfC (handleReplay fs st p).2.replayCounters
        st.currentSequenceName
        (recordingFilepathNew st.currentRecordingsDir st.currentSequenceName p) = k + 1 := by
      rw [hst1, cursor_bump_self]
    obtain ⟨ho, hd, hs, hc⟩ := ih (k + 1) (handleReplay fs st p).2 hfs hk1 (by omega)
    have hc2 : cursorOfC (replayN fs p m (handleReplay fs st p).2).2.replayCounters
        st.currentSequenceName
        (recordingFilepathNew st.currentRecordingsDir st.currentSequenceName p) =
        k + 1 + m := hc
    refine ⟨?_, hd, hs, ?_⟩
    · simp only [replayN]
      rw [hout, ho]
      simp only [List.range_succ_eq_map, List.map_cons, List.map_map,
        Function.comp_apply, Nat.add_zero]
      congr 1
      apply List.map_congr_left
      intro i _
      rw [show k + 1 + i = k + (i + 1) from by omega]
      rfl
    · simp only [replayN]
      omega

/-- C2: with `N` recorded interactions resolved at a location, `N`
consecutive replay requests serve the interactions in recorded order (the
i-th request serves index i-1), and the `(N+1)`-th request fails with the
sequence-exhausted response (HTTP 500, message naming path and sequence). -/
theorem claim2_fifo_replay_then_exhausted (fs : String → List Interaction)
    (st : FullState) (p : String) (L : List Interaction)
    (hfs : fs (recordingFilepathNew st.currentRecordingsDir st.currentSequenceName p) = L)
    (hN : 0 < L.length)
    (hbodies : ∀ i ∈ L, i.response.body.isSome)
    (hfresh : cursorOfC st.replayCounters st.currentSequenceName
      (recordingFilepathNew st.currentRecordingsDir st.currentSequenceName p) = 0) :
    (replayN fs p (L.length + 1) st).1 =
      (List.range L.length).map (fun i => servedOf (L.getD i default)) ++
        [.failure 500 (exhaustedMsg p st.currentSequenceName
          (recordingFilepathNew st.currentRecordingsDir st.currentSequenceName p))] := by
  have hne : L ≠ [] := List.ne_nil_of_length_pos hN
  obtain ⟨hadd1, hadd2⟩ := replayN_add fs p L.length 1 st
  obtain ⟨ho, hd, hs, hc⟩ := replayN_served_run fs p L hbodies L.length 0 st hfs hfresh
    (by omega)
  have hfs2 : fs (recordingFilepathNew (replayN fs p L.length st).2.currentRecordingsDir
      (replayN fs p L.length st).2.currentSequenceName p) = L := by
    rw [hd, hs]
    exact hfs
  have hres2 := resolveRecordings_new fs
    (replayN fs p L.length st).2.currentRecordingsDir
    (replayN fs p L.length st).2.currentSequenceName p
    (by rw [hfs2]; exact hne)
  rw [hfs2] at hres2
  have hcur2 : cursorOfC (replayN fs p L.length st).2.replayCounters
      (replayN fs p L.length st).2.currentSequenceName
      (recordingFilepathNew (replayN fs p L.length st).2.currentRecordingsDir
        (replayN fs p L.length st).2.currentSequenceName p) = L.length := by
    rw [hd, hs]
    simpa using hc
  have hexh := handleReplayCore_exhausted fs
    (replayN fs p L.length st).2.currentRecordingsDir
    (replayN fs p L.length st).2.currentSequenceName
    (replayN fs p L.length st).2.replayCounters p L
    (recordingFilepathNew (replayN fs p L.length st).2.currentRecordingsDir
      (replayN fs p L.length st).2.currentSequenceName p)
    hres2 hne (le_of_eq hcur2.symm)
  have hstep : (replayN fs p 1 (replayN fs p L.length st).2).1 =
      [.failure 500 (exhaustedMsg p st.currentSequenceName
        (recordingFilepathNew st.currentRecordingsDir st.currentSequenceName p))] := by
    simp only [replayN]
    rw [handleReplay_outcome, hexh, hd, hs]
  rw [hadd1, ho, hstep]
  congr 1
  apply List.map_congr_left
  intro i _
  rw [Nat.zero_add]

/-! ## Remaining claims -/

/-- C4 counterexample: the claim says every activation in effective record
mode, including the implicit first activation at construction, recursively
removes the sequence's entire on-disk directory so that no interaction is
loadable. The construction-time cleanup only deletes `*.echo.json` files: a
legacy-suffix file survives it and its interaction is still served by
replay resolution, refuting the claim at this input. -/
theorem claim4_counterexample :
    initialCleanupFiles legacyDirFiles = legacyDirFiles ∧
    legacyDirFiles ≠ [] ∧
    (handleReplayCore (fsOfSeqDir "d" "s" (initialCleanupFiles legacyDirFiles))
      "d" "s" [] "/get").1 = servedOf sampleInteraction1 ∧
    servedOf sampleInteraction1 ≠ .failure 500 (noRecordingMsg "/get" "s") := by
  decide

/-- C4 (amended): an explicit activation whose effective mode is record
clears the sequence's in-memory recordings and removes its whole directory
(tolerating an absent one and leaving other sequences' directories intact);
the implicit first activation at construction instead deletes exactly the
files of the directory whose names end in `.echo.json`, keeping every other
file. -/
theorem claim4_amended_activation_cleanup (st : FullState) (disk : DirMap) (name : String)
    (overrideMode : Option Bool) (files : List (String × List Interaction))
    (hmode : overrideMode.getD st.currentRecordMode = true) :
    alookup name (internalSetSequence st disk name overrideMode).2 = none ∧
    (∀ other, other ≠ name →
      alookup other (internalSetSequence st disk name overrideMode).2 = alookup other disk) ∧
    alookup name (internalSetSequence st disk name overrideMode).1.inMemoryRecordings =
      some [] ∧
    (∀ e ∈ initialCleanupFiles files, e ∈ files ∧ strEndsWith e.1 ".echo.json" = false) ∧
    (∀ e ∈ files, strEndsWith e.1 ".echo.json" = false → e ∈ initialCleanupFiles files) := by
  have hdisk : (internalSetSequence st disk name overrideMode).2 = eraseAssoc name disk := by
    simp [internalSetSequence, hmode]
  have hmem : (internalSetSequence st disk name overrideMode).1.inMemoryRecordings =
      setAssoc name [] st.inMemoryRecordings := by
    simp [internalSetSequence, hmode]
  refine ⟨?_, ?_, ?_, ?_, ?_⟩
  · rw [hdisk]
    exact alookup_eraseAssoc_self name disk
  · intro other hother
    rw [hdisk]
    exact alookup_eraseAssoc_ne name other disk hother
  · rw [hmem]
    exact alookup_setAssoc_self name [] st.inMemoryRecordings
  · intro e he
    exact (mem_initialCleanupFiles files e).mp he
  · intro e he hend
    exact (mem_initialCleanupFiles files e).mpr ⟨he, hend⟩

theorem claim4_amended_witness :
    alookup "s" (internalSetSequence wSt [] "s" (some true)).2 = none ∧
    (∀ other, other ≠ "s" →
      alookup other (internalSetSequence wSt [] "s" (some true)).2 =
        alookup other ([] : DirMap)) ∧
    alookup "s" (internalSetSequence wSt [] "s" (some true)).1.inMemoryRecordings =
      some [] ∧
    (∀ e ∈ initialCleanupFiles sampleFiles, e ∈ sampleFiles ∧
      strEndsWith e.1 ".echo.json" = false) ∧
    (∀ e ∈ sampleFiles, strEndsWith e.1 ".echo.json" = false →
      e ∈ initialCleanupFiles sampleFiles) :=
  claim4_amended_activation_cleanup wSt [] "s" (some true) sampleFiles rfl

/-- C8 counterexample: the claim says re-activating an already-used sequence
name resets its cursors so replay restarts from the first interaction. In
the code `internalSetSequence` only initialises `replayCounters[name]` when
it is absent: after one replay and a re-activation of the same sequence, the
cursor still reads 1 and the next replay serves the second interaction, not
the first. -/
theorem claim8_counterexample :
    cursorOfC (internalSetSequence (handleReplay sampleFs2 wSt "/get").2 [] "s"
        none).1.replayCounters "s" (recordingFilepathNew "d" "s" "/get") = 1 ∧
    (handleReplay sampleFs2
        (internalSetSequence (handleReplay sampleFs2 wSt "/get").2 [] "s" none).1 "/get").1 =
      servedOf sampleInteraction2 ∧
    servedOf sampleInteraction2 ≠ servedOf sampleInteraction1 := by
  decide

/-- C8 (amended): replay cursors default to 0, are never decremented by any
replay, and a successful replay increments exactly the used file's cursor by
one, leaving every other cursor unchanged; activation (first or repeated)
never changes any cursor value — the first activation initialises the
sequence's cursor map to empty (all cursors 0, their default), and
re-activating an already-used sequence preserves its cursors, so replay
resumes where it left off rather than restarting. -/
theorem claim8_amended_cursor_lifecycle (st : FullState) (disk : DirMap) (name : String)
    (overrideMode : Option Bool) (fs : String → List Interaction)
    (dir seq seq2 fp2 p used b : String) (rc : ReplayCounters) (L : List Interaction)
    (k : Nat) :
    cursorOfC [] seq2 fp2 = 0 ∧
    cursorOfC (internalSetSequence st disk name overrideMode).1.replayCounters seq2 fp2 =
      cursorOfC st.replayCounters seq2 fp2 ∧
    cursorOfC rc seq2 fp2 ≤ cursorOfC (handleReplayCore fs dir seq rc p).2 seq2 fp2 ∧
    (resolveRecordings fs dir seq p = (L, used) → cursorOfC rc seq used = k →
      k < L.length → (L.getD k default).response.body = some b →
      cursorOfC (handleReplayCore fs dir seq rc p).2 seq used = k + 1 ∧
      (∀ fp3, fp3 ≠ used →
        cursorOfC (handleReplayCore fs dir seq rc p).2 seq fp3 = cursorOfC rc seq fp3) ∧
      (∀ s3 fp3, s3 ≠ seq →
        cursorOfC (handleReplayCore fs dir seq rc p).2 s3 fp3 = cursorOfC rc s3 fp3)) := by
  have hrc : (internalSetSequence st disk name overrideMode).1.replayCounters =
      ensureSeq name st.replayCounters := by
    cases hc : overrideMode.getD st.currentRecordMode <;> simp [internalSetSequence, hc]
  refine ⟨rfl, ?_, handleReplayCore_cursor_mono fs dir seq rc p seq2 fp2, ?_⟩
  · rw [hrc, ensureSeq_cursor]
  · intro hres hk hklen hb
    have hcore := handleReplayCore_served fs dir seq rc p L used b k hres hk hklen hb
    rw [hcore]
    exact ⟨cursor_bump_self rc seq used k,
      fun fp3 h3 => cursor_bump_ne_fp rc seq used fp3 k h3,
      fun s3 fp3 h3 => cursor_bump_ne_seq rc seq used s3 fp3 k h3⟩

/-- C5: at most one write is in flight at any reachable pipeline state; the
completed writes are exactly a front segment of the enqueue history (strict
FIFO), with the in-flight job and the queue completing it in order; and each
file's content is the full snapshot of the newest job written to that path,
so the newest job, processed last, determines the final file content. -/
theorem claim5_single_writer_fifo (s : QState) (h : QReach s) :
    s.inflight.toList.length ≤ 1 ∧
    (∃ rest, s.enqueued = s.written ++ rest) ∧
    s.enqueued = s.written ++ s.inflight.toList ++ s.writeQueue ∧
    (∀ q, alookup q s.disk =
      (s.written.reverse.find? (fun j => j.filePath == q)).map
        (fun j => j.recordingsArray)) := by
  obtain ⟨h1, h2, h3⟩ := QReach_stateInv s h
  refine ⟨?_, ⟨s.inflight.toList ++ s.writeQueue, by rw [h1, List.append_assoc]⟩, h1, ?_⟩
  · cases s.inflight <;> simp
  · intro q
    rw [h2, lookup_diskOfWritten]

theorem claim5_witness :
    qs1.inflight.toList.length ≤ 1 ∧
    (∃ rest, qs1.enqueued = qs1.written ++ rest) ∧
    qs1.enqueued = qs1.written ++ qs1.inflight.toList ++ qs1.writeQueue ∧
    (∀ q, alookup q qs1.disk =
      (qs1.written.reverse.find? (fun j => j.filePath == q)).map
        (fun j => j.recordingsArray)) :=
  claim5_single_writer_fifo qs1
    (Relation.ReflTransGen.single (QStep.enqueue initQ jobA))

/-- C3: whenever `stop()` resolves (which also closes the listener), the
write queue was empty and no write was in flight at that moment, every job
ever enqueued had been written, and each enqueued job's target file holds
the snapshot of the newest job enqueued for that path — so a write enqueued
before `stop()` was called is on disk before `stop()` resolves and before
the listener is closed. -/
theorem claim3_drain_before_stop (s s' : QState) (hreach : QReach s) (hstep : QStep s s')
    (hbefore : s.stopResolved = false) (hafter : s'.stopResolved = true) :
    s.writeQueue = [] ∧ s.inflight = none ∧ s.serverClosed = false ∧
    s.written = s.enqueued ∧
    (∀ j ∈ s.enqueued, (alookup j.filePath s.disk).isSome ∧
      alookup j.filePath s.disk =
        (s.enqueued.reverse.find? (fun j2 => j2.filePath == j.filePath)).map
          (fun j2 => j2.recordingsArray)) := by
  obtain ⟨h1, h2, h3⟩ := QReach_stateInv s hreach
  cases hstep with
  | enqueue j => simp [hbefore] at hafter
  | runEmpty hp hw hq => simp [hbefore] at hafter
  | runDequeue j rest hp hw hq => simp [hbefore] at hafter
  | finishWrite j hw => simp [hbefore] at hafter
  | requestStop => simp [hbefore] at hafter
  | resolveStop hstopping hq hw =>
    have hwritten : s.written = s.enqueued := by
      rw [h1, hq, hw]
      simp
    refine ⟨hq, hw, by rw [h3, hbefore], hwritten, ?_⟩
    intro j hj
    have hlook : alookup j.filePath s.disk =
        (s.enqueued.reverse.find? (fun j2 => j2.filePath == j.filePath)).map
          (fun j2 => j2.recordingsArray) := by
      rw [h2, lookup_diskOfWritten, hwritten]
    refine ⟨?_, hlook⟩
    rw [hlook]
    have hex : ∃ x ∈ s.enqueued.reverse, (x.filePath == j.filePath) = true :=
      ⟨j, List.mem_reverse.mpr hj, by simp⟩
    simpa [Option.isSome_map] using List.find?_isSome.mpr hex

theorem claim3_witness :
    qs4.writeQueue = [] ∧ qs4.inflight = none ∧ qs4.serverClosed = false ∧
    qs4.written = qs4.enqueued ∧
    (∀ j ∈ qs4.enqueued, (alookup j.filePath qs4.disk).isSome ∧
      alookup j.filePath qs4.disk =
        (qs4.enqueued.reverse.find? (fun j2 => j2.filePath == j.filePath)).map
          (fun j2 => j2.recordingsArray)) :=
  claim3_drain_before_stop qs4 { qs4 with serverClosed := true, stopResolved := true }
    (Relation.ReflTransGen.tail (Relation.ReflTransGen.tail (Relation.ReflTransGen.tail
      (Relation.ReflTransGen.single (QStep.enqueue initQ jobA))
      (QStep.requestStop qs1)) (QStep.runDequeue qs2 jobA [] rfl rfl rfl))
      (QStep.finishWrite qs3 jobA rfl))
    (QStep.resolveStop qs4 rfl rfl rfl) rfl rfl

theorem claim1_witness :
    c1Interaction.response.body =
      some (base64Encode ([[0, 255, 254, 128]] : List (List Nat)).flatten) ∧
    (handleReplayCore c1Fs "d" "s" [] "/get").1 =
      .served 200 (replayHeaders (redactHeaders [("content-type", "application/octet-stream")]
        (mkRedactSet ["authorization"]))) ([[0, 255, 254, 128]] : List (List Nat)).flatten :=
  claim1_byte_exact_roundtrip ["authorization"] "GET" "/get" "/get" [] none none 200
    [("content-type", "application/octet-stream")] none [[0, 255, 254, 128]] c1Fs "d" "s" []
    (by decide) (by decide) (by decide)

theorem claim2_witness :
    (replayN sampleFs2 "/get" ([sampleInteraction1, sampleInteraction2].length + 1) wSt).1 =
      (List.range [sampleInteraction1, sampleInteraction2].length).map
        (fun i => servedOf ([sampleInteraction1, sampleInteraction2].getD i default)) ++
        [.failure 500 (exhaustedMsg "/get" wSt.currentSequenceName
          (recordingFilepathNew wSt.currentRecordingsDir wSt.currentSequenceName "/get"))] :=
  claim2_fifo_replay_then_exhausted sampleFs2 wSt "/get"
    [sampleInteraction1, sampleInteraction2] (by decide) (by decide) (by decide) (by decide)

theorem claim6_witness :
    (internalSetSequence wStRec [] "s" (some false)).1.activeSequenceEffectiveMode =
      ((some false).getD wStRec.currentRecordMode) ∧
    (routeRequest sampleFs2 (internalSetSequence wStRec [] "s" (some false)).1 "/get").1 ≠
      .forwarded ∧
    (¬ strStartsWith "/get" "/echoproxia/" →
      ∃ o, (routeRequest sampleFs2 (internalSetSequence wStRec [] "s" (some false)).1
        "/get").1 = .replayed o) :=
  claim6_replay_mode_never_forwards wStRec [] "s" (some false) sampleFs2 "/get" (by decide)

theorem claim10_witness :
    (handleReplayCore sampleFs2 "d" "s" c10Rc "/get").1 =
      .served ([sampleInteraction1, sampleInteraction2].getD 0 default).response.status
        (replayHeaders ([sampleInteraction1, sampleInteraction2].getD 0
          default).response.headers) (base64Decode "") ∧
    cursorOfC (handleReplayCore sampleFs2 "d" "s" c10Rc "/get").2 "s"
      (recordingFilepathNew "d" "s" "/get") = 1 ∧
    cursorOfC (handleReplayCore sampleFs2 "d" "s" c10Rc "/get").2 "s"
      (recordingFilepathOld "d" "s" "/get") = 5 :=
  claim10_cursor_keyed_by_used_filepath sampleFs2 "d" "s" "/get" "" c10Rc
    [sampleInteraction1, sampleInteraction2] 5 (by decide) (by decide) (by decide)
    (by decide) (by decide) (by decide)
